import Mathlib

/-!
Verification of the motion-and-sensor coordination layer of
`opentrons_hardware.hardware_control.tool_sensors`.

The embedding translates `tool_sensors.py` directly.  Collaborating modules
that are not part of the analysed sources (`motion.create_step`, the sensor
scheduler/driver, `MoveGroupRunner`) are modelled from the specification,
as marked in their doc comments.  Machine floats are modelled by exact
rationals: every claim below is about signs, magnitudes and exact
arithmetic identities, not about rounding of binary floats.
-/

namespace ToolSensors

/-- Node identities used by the probing procedures (a subset of the
firmware `NodeId` enum: the head mount axes, gantry axes, pipettes and
gripper). -/
inductive NodeId where
  | head_l
  | head_r
  | gantry_x
  | gantry_y
  | pipette_left
  | pipette_right
  | gripper
deriving DecidableEq, Repr

/-- Stop conditions of a move step (spec §3: `none`, `limit_switch`,
`sync_line`, `sensor_threshold`). -/
inductive MoveStopCondition where
  | no_stop
  | limit_switch
  | sync_line
  | sensor_threshold
deriving DecidableEq, Repr

/-- One per-node motion primitive (spec §3 MoveStep): signed velocity,
non-negative duration, optional acceleration, stop condition, plus the
commanded distance recorded by `create_step`. -/
structure MoveStep where
  distance : ℚ
  velocity : ℚ
  acceleration : Option ℚ
  duration : ℚ
  stop_condition : MoveStopCondition
deriving DecidableEq, Repr

/-- A move group step: the ordered mapping Node → MoveStep produced by
`create_step` (ordered by the `present_nodes` list). -/
abbrev MoveGroupStep := List (NodeId × MoveStep)

/-- Modelled from the spec: `create_step`
(`opentrons_hardware.hardware_control.motion`) is not among the analysed
sources.  Per spec §3, a MoveGroup is an ordered mapping Node → MoveStep
in which every step carries the group's shared nominal duration; the
call site in `tool_sensors.py` passes per-node distance, velocity and
acceleration maps, one shared duration, the list of present nodes and one
stop condition, so each present node receives its own map entries together
with the shared duration and stop condition. -/
def create_step (distance velocity : NodeId → ℚ) (acceleration : NodeId → Option ℚ)
    (duration : ℚ) (present_nodes : List NodeId) (stop : MoveStopCondition) :
    MoveGroupStep :=
  present_nodes.map fun n =>
    (n, { distance := distance n
          velocity := velocity n
          acceleration := acceleration n
          duration := duration
          stop_condition := stop })

/-- `copysign(1.0, x)`: 1 with the sign of `x` (rationals have no negative
zero, so nonnegative `x` gives `1`). -/
def copysign_one (x : ℚ) : ℚ := if x < 0 then -1 else 1

/-- The primary-mover selection of `_build_pass_step` (tool_sensors.py
lines 41-44): if a pipette is among the movers, the first head axis among
them, otherwise the first mover; `Option.none` models the `IndexError`
raised when the selected list is empty. -/
def primary_mover_of (movers : List NodeId) : Option NodeId :=
  if NodeId.pipette_left ∈ movers ∨ NodeId.pipette_right ∈ movers then
    (movers.filter fun ax => ax = NodeId.head_l ∨ ax = NodeId.head_r).head?
  else
    movers.head?

/-- `_build_pass_step` (tool_sensors.py lines 34-54).  The distance and
speed dictionaries are modelled as total maps (the callers populate exactly
the movers).  `Option.none` models the uncaught exceptions: the
`IndexError` of the primary-mover selection and the `ZeroDivisionError` of
the duration computation `abs(distance[movers[0]] / speed[movers[0]])`.
Note that the duration is computed from `movers[0]`, not from the selected
primary mover. -/
def build_pass_step (movers : List NodeId) (distance speed : NodeId → ℚ) :
    Option MoveGroupStep :=
  match primary_mover_of movers, movers.head? with
  | some _, some m0 =>
      if speed m0 = 0 then none
      else
        some (create_step
          (fun ax => |distance ax|)
          (fun ax => speed ax * copysign_one (distance ax))
          (fun _ => Option.none)
          |distance m0 / speed m0|
          movers
          MoveStopCondition.sync_line)
  | _, _ => none

/-- Modelled from the spec: the per-node result of `MoveGroupRunner.run`
is not among the analysed sources.  Its shape is fixed by the return
annotation of `liquid_probe` (`Dict[NodeId, Tuple[float, float, bool,
bool]]`) and spec §4.2: the final measured position, the raw sensor value
observed, a boolean stopped-early flag, and the stopped-by-peer
indication for the other nodes of the group. -/
structure NodeResult where
  position : ℚ
  sensor_value : ℚ
  stopped_early : Bool
  stopped_by_peer : Bool
deriving DecidableEq, Repr

/-- The dictionary returned by `MoveGroupRunner.run`, modelled as a total
map over node identities. -/
abbrev RunnerResult := NodeId → NodeResult

/-- Observable remote effects of the probing procedures, in the order the
host issues them: threshold messages, move-group construction, runner
preparation, the arming and disarming of a sensor binding, and the
execution of the move. -/
inductive Event where
  | send_threshold_req (n : NodeId)
  | send_stop_threshold (n : NodeId)
  | build_step
  | runner_prep
  | arm (n : NodeId)
  | runner_execute
  | disarm (n : NodeId)
deriving DecidableEq, Repr

/-- Errors a probing procedure can raise: the `RuntimeError` of
`capacitive_probe` when the threshold is not accepted, the uncaught
`IndexError`/`ZeroDivisionError` out of `_build_pass_step`, and an
abstract failure of the runner's execution. -/
inductive ProbeError where
  | threshold_rejected
  | build_error
  | execution_error
deriving DecidableEq, Repr

/-- A procedure outcome: the ordered trace of remote events it issued and
its returned value or raised error. -/
structure ProcTrace (α : Type) where
  events : List Event
  result : Except ProbeError α

/-- The pass group built by `liquid_probe` (tool_sensors.py lines 77-81):
`movers=[mount, tool]` with the distance dictionary `{mount:
mount_distance, tool: pipette_distance}` and the speed dictionary
`{mount: mount_speed, tool: pipette_speed}` (later key wins when `mount =
tool`, as in a Python dict literal). -/
def liquid_probe_pass_group (tool mount : NodeId)
    (pipette_distance pipette_speed mount_distance mount_speed : ℚ) :
    Option MoveGroupStep :=
  build_pass_step [mount, tool]
    (fun n => if n = tool then pipette_distance
              else if n = mount then mount_distance else 0)
    (fun n => if n = tool then pipette_speed
              else if n = mount then mount_speed else 0)

/-- The pass group built by `capacitive_probe` (line 125) and
`capacitive_pass` (line 149): `_build_pass_step([mover], {mover:
distance}, {mover: speed})`. -/
def single_mover_pass_group (mover : NodeId) (distance speed : ℚ) :
    Option MoveGroupStep :=
  build_pass_step [mover]
    (fun n => if n = mover then distance else 0)
    (fun n => if n = mover then speed else 0)

/-- `liquid_probe` (tool_sensors.py lines 57-89), abstracted over the
runner's outcome `run_outcome` (`MoveGroupRunner.run` is not among the
analysed sources).  The procedure builds the pass group, sends the stop
threshold, then runs the move inside `async with
sensor_driver.bind_output(...)`; the `async with` exit (the disarm) runs
also when the execution raises, so the event trace does not depend on
`run_outcome`, and the runner's dictionary is returned unchanged. -/
def liquid_probe (tool mount : NodeId)
    (pipette_distance pipette_speed mount_distance mount_speed : ℚ)
    (run_outcome : Except ProbeError RunnerResult) :
    ProcTrace RunnerResult :=
  match liquid_probe_pass_group tool mount
      pipette_distance pipette_speed mount_distance mount_speed with
  | none => { events := [], result := Except.error ProbeError.build_error }
  | some _ =>
      { events := [Event.build_step, Event.send_stop_threshold tool,
                   Event.arm tool, Event.runner_execute, Event.disarm tool]
        result := run_outcome }

/-- `capacitive_probe` (tool_sensors.py lines 92-131), abstracted over the
accepted threshold echoed by the node (`threshold`, `Option.none` when
`send_threshold` yields no accepted value) and over the runner's outcome.
On a rejected threshold it raises `RuntimeError` before building any move
group; otherwise it arms the sync binding, runs the move and returns
`position[mover][:2]`, the first two components of the mover's tuple; the
`async with` exit (the disarm) runs also when the execution raises. -/
def capacitive_probe (tool mover : NodeId) (distance speed : ℚ)
    (threshold : Option ℚ) (run_outcome : Except ProbeError RunnerResult) :
    ProcTrace (ℚ × ℚ) :=
  match threshold with
  | none =>
      { events := [Event.send_threshold_req tool]
        result := Except.error ProbeError.threshold_rejected }
  | some _ =>
      match single_mover_pass_group mover distance speed with
      | none =>
          { events := [Event.send_threshold_req tool]
            result := Except.error ProbeError.build_error }
      | some _ =>
          { events := [Event.send_threshold_req tool, Event.build_step,
                       Event.arm tool, Event.runner_execute, Event.disarm tool]
            result := run_outcome.map fun pos =>
              ((pos mover).position, (pos mover).sensor_value) }

/-- The sample queue filled by a capture binding: an asyncio FIFO queue,
`items` listed in the order the samples were produced. -/
structure SampleQueue where
  items : List ℚ
deriving DecidableEq, Repr

/-- `Queue.get_nowait`: the oldest sample and the rest of the queue, or
`Option.none` (the `QueueEmpty` exception) when the queue is empty. -/
def get_nowait (q : SampleQueue) : Option (ℚ × SampleQueue) :=
  match q.items with
  | [] => Option.none
  | x :: xs => Option.some (x, ⟨xs⟩)

/-- The `_drain` loop of `capacitive_pass` (tool_sensors.py lines
155-162): repeatedly `get_nowait` until the `QueueEmpty` exception breaks
the loop. -/
def drain (q : SampleQueue) : List ℚ :=
  match h : get_nowait q with
  | Option.none => []
  | Option.some (x, rest) => x :: drain rest
termination_by q.items.length
decreasing_by
  unfold get_nowait at h
  cases hq : q.items with
  | nil => rw [hq] at h; exact absurd h (by simp)
  | cons y ys =>
      rw [hq] at h
      simp only [Option.some.injEq, Prod.mk.injEq] at h
      rw [← h.2]
      simp

/-- `capacitive_pass` (tool_sensors.py lines 134-163), abstracted over the
samples the capture binding pushed into the queue during the move and
over the runner's outcome.  It builds the pass group, preps the runner,
then executes inside `async with sensor_scheduler.capture_output(...)`
(the disarm runs also when the execution raises); afterwards it drains
the queue with `_drain` and returns the list of samples. -/
def capacitive_pass (tool mover : NodeId) (distance speed : ℚ)
    (samples : List ℚ) (run_outcome : Except ProbeError Unit) :
    ProcTrace (List ℚ) :=
  match single_mover_pass_group mover distance speed with
  | none => { events := [], result := Except.error ProbeError.build_error }
  | some _ =>
      { events := [Event.build_step, Event.runner_prep, Event.arm tool,
                   Event.runner_execute, Event.disarm tool]
        result := run_outcome.map fun _ => drain ⟨samples⟩ }

/-- Modelled from the spec: the fixed-point scale factor
`sensor_fixed_point_conversion` (`opentrons_hardware.sensors.types`) is
not among the analysed sources; spec §4.3 documents it as the scale of
the fixed-point wire format, modelled here as the power-of-two scale
`2^16`. -/
def sensor_fixed_point_conversion : ℚ := 2 ^ 16

/-- The threshold conversion performed by `liquid_probe` on send
(tool_sensors.py line 70): `threshold_fixed_point = threshold_pascals *
sensor_fixed_point_conversion`. -/
def threshold_fixed_point (threshold_pascals : ℚ) : ℚ :=
  threshold_pascals * sensor_fixed_point_conversion

/-- Modelled from the spec: the float → fixed-point direction of the
driver's conversion (spec §4.3): scale and round to the nearest
representable fixed-point integer. -/
def to_fixed_point (x : ℚ) : ℤ :=
  round (x * sensor_fixed_point_conversion)

/-- Modelled from the spec: the fixed-point → float read-back direction
of the driver's conversion (spec §4.3): divide by the scale factor. -/
def to_float (n : ℤ) : ℚ :=
  (n : ℚ) / sensor_fixed_point_conversion

/-- Concrete movers list with the pipette ahead of the head axis. -/
def c1_movers : List NodeId := [NodeId.pipette_left, NodeId.head_l]

/-- Concrete movers list in the order `liquid_probe` uses: mount first. -/
def c2_movers : List NodeId := [NodeId.head_l, NodeId.pipette_left]

/-- Concrete distance map: 2 for the pipette, 1 for every other node. -/
def c1_distance : NodeId → ℚ := fun n => if n = NodeId.pipette_left then 2 else 1

/-- Concrete speed map: 1 everywhere. -/
def c1_speed : NodeId → ℚ := fun _ => 1

/-- The step a single mover with distance 2 and speed 1 receives. -/
def c2_witness_step : MoveStep :=
  { distance := 2, velocity := 1, acceleration := Option.none,
    duration := 2, stop_condition := MoveStopCondition.sync_line }

/-- The pass group a single mover `head_l` with distance 3 and speed -2
receives. -/
def c3_witness_group : MoveGroupStep :=
  [(NodeId.head_l,
    { distance := 3, velocity := -2, acceleration := Option.none,
      duration := 3 / 2, stop_condition := MoveStopCondition.sync_line })]

/-- A constant runner dictionary: every node reports the same tuple. -/
def runner_const (pos sv : ℚ) (e pe : Bool) : RunnerResult :=
  fun _ => { position := pos, sensor_value := sv,
             stopped_early := e, stopped_by_peer := pe }

lemma mem_create_step {d v : NodeId → ℚ} {a : NodeId → Option ℚ} {dur : ℚ}
    {movers : List NodeId} {stop : MoveStopCondition} {n : NodeId} {st : MoveStep} :
    (n, st) ∈ create_step d v a dur movers stop ↔
      n ∈ movers ∧
        st = { distance := d n, velocity := v n, acceleration := a n,
               duration := dur, stop_condition := stop } := by
  simp only [create_step, List.mem_map, Prod.mk.injEq]
  constructor
  · rintro ⟨m, hm, rfl, rfl⟩
    exact ⟨hm, rfl⟩
  · rintro ⟨hn, rfl⟩
    exact ⟨n, hn, rfl, rfl⟩

lemma build_pass_step_none_of_primary_none {movers : List NodeId} {d s : NodeId → ℚ}
    (h : primary_mover_of movers = none) : build_pass_step movers d s = none := by
  cases movers with
  | nil => simp [build_pass_step, primary_mover_of]
  | cons m rest =>
      unfold build_pass_step
      rw [h]

lemma build_pass_step_cons_some {m0 : NodeId} {rest : List NodeId} {d s : NodeId → ℚ}
    {p : NodeId} (hp : primary_mover_of (m0 :: rest) = some p) :
    build_pass_step (m0 :: rest) d s =
      if s m0 = 0 then none
      else
        some (create_step (fun ax => |d ax|)
          (fun ax => s ax * copysign_one (d ax)) (fun _ => Option.none)
          |d m0 / s m0| (m0 :: rest) MoveStopCondition.sync_line) := by
  unfold build_pass_step
  rw [hp]
  rfl

lemma build_pass_step_some_spec {movers : List NodeId} {d s : NodeId → ℚ}
    {g : MoveGroupStep} (h : build_pass_step movers d s = some g) :
    ∃ m0 rest, movers = m0 :: rest ∧ s m0 ≠ 0 ∧
      g = create_step (fun ax => |d ax|)
        (fun ax => s ax * copysign_one (d ax)) (fun _ => Option.none)
        |d m0 / s m0| movers MoveStopCondition.sync_line := by
  cases movers with
  | nil => exact absurd h (by simp [build_pass_step, primary_mover_of])
  | cons m0 rest =>
      cases hp : primary_mover_of (m0 :: rest) with
      | none =>
          rw [build_pass_step_none_of_primary_none hp] at h
          exact absurd h (by simp)
      | some p =>
          rw [build_pass_step_cons_some hp] at h
          by_cases hs : s m0 = 0
          · rw [if_pos hs] at h
            exact absurd h (by simp)
          · rw [if_neg hs] at h
            exact ⟨m0, rest, rfl, hs, (Option.some.inj h).symm⟩

lemma head_mem_of_primary_pipette {movers : List NodeId} {p : NodeId}
    (hpip : NodeId.pipette_left ∈ movers ∨ NodeId.pipette_right ∈ movers)
    (hp : primary_mover_of movers = some p) :
    NodeId.head_l ∈ movers ∨ NodeId.head_r ∈ movers := by
  unfold primary_mover_of at hp
  rw [if_pos hpip] at hp
  have hpf : p ∈ movers.filter fun ax => ax = NodeId.head_l ∨ ax = NodeId.head_r := by
    have := List.mem_of_mem_head? (l := movers.filter fun ax =>
      ax = NodeId.head_l ∨ ax = NodeId.head_r) (a := p)
    apply this
    rw [hp]
    rfl
  rw [List.mem_filter] at hpf
  have hpe : p = NodeId.head_l ∨ p = NodeId.head_r := by
    have := hpf.2
    simpa using this
  cases hpe with
  | inl he => exact Or.inl (he ▸ hpf.1)
  | inr he => exact Or.inr (he ▸ hpf.1)

lemma primary_some_of_precondition {m0 : NodeId} {rest : List NodeId}
    (h : (NodeId.pipette_left ∈ m0 :: rest ∨ NodeId.pipette_right ∈ m0 :: rest) →
      (NodeId.head_l ∈ m0 :: rest ∨ NodeId.head_r ∈ m0 :: rest)) :
    ∃ p, primary_mover_of (m0 :: rest) = some p := by
  unfold primary_mover_of
  by_cases hpip : NodeId.pipette_left ∈ m0 :: rest ∨ NodeId.pipette_right ∈ m0 :: rest
  · rw [if_pos hpip]
    have hhead := h hpip
    have hne : (List.filter (fun ax =>
        decide (ax = NodeId.head_l ∨ ax = NodeId.head_r)) (m0 :: rest)) ≠ [] := by
      intro hnil
      rw [List.filter_eq_nil_iff] at hnil
      cases hhead with
      | inl hh => exact absurd (hnil _ hh) (by simp)
      | inr hh => exact absurd (hnil _ hh) (by simp)
    cases hf : List.filter (fun ax =>
        decide (ax = NodeId.head_l ∨ ax = NodeId.head_r)) (m0 :: rest) with
    | nil => exact absurd hf hne
    | cons q qs => exact ⟨q, rfl⟩
  · rw [if_neg hpip]
    exact ⟨m0, rfl⟩

/-- C9: `_build_pass_step` succeeds exactly when the movers list is
non-empty, the first mover's speed is nonzero, and a head axis is among
the movers whenever a pipette is; outside this precondition the
primary-mover selection raises `IndexError` or the duration computation
divides by zero (modelled by `Option.none`), and under it those error
branches are unreachable. -/
theorem build_pass_step_total_iff_precondition (movers : List NodeId)
    (d s : NodeId → ℚ) :
    (build_pass_step movers d s).isSome ↔
      ((∃ m0 rest, movers = m0 :: rest ∧ s m0 ≠ 0) ∧
        ((NodeId.pipette_left ∈ movers ∨ NodeId.pipette_right ∈ movers) →
          (NodeId.head_l ∈ movers ∨ NodeId.head_r ∈ movers))) := by
  constructor
  · intro h
    rw [Option.isSome_iff_exists] at h
    obtain ⟨g, hg⟩ := h
    obtain ⟨m0, rest, hm, hs, -⟩ := build_pass_step_some_spec hg
    refine ⟨⟨m0, rest, hm, hs⟩, fun hpip => ?_⟩
    cases hp : primary_mover_of movers with
    | none => rw [build_pass_step_none_of_primary_none hp] at hg; cases hg
    | some p => exact head_mem_of_primary_pipette hpip hp
  · rintro ⟨⟨m0, rest, rfl, hs⟩, himp⟩
    obtain ⟨p, hp⟩ := primary_some_of_precondition himp
    rw [build_pass_step_cons_some hp, if_neg hs]
    rfl

/-- C10: every step built by `_build_pass_step` — hence every motion
commanded by `liquid_probe`, `capacitive_probe` and `capacitive_pass`,
whose pass groups are exactly `_build_pass_step` applications — carries
the `sync_line` stop condition and an empty acceleration map for every
mover. -/
theorem steps_sync_line_and_no_acceleration :
    (∀ (movers : List NodeId) (d s : NodeId → ℚ) (g : MoveGroupStep),
      build_pass_step movers d s = some g →
        ∀ p ∈ g, p.2.stop_condition = MoveStopCondition.sync_line ∧
          p.2.acceleration = Option.none) ∧
    (∀ (tool mount : NodeId) (pd ps md ms : ℚ) (g : MoveGroupStep),
      liquid_probe_pass_group tool mount pd ps md ms = some g →
        ∀ p ∈ g, p.2.stop_condition = MoveStopCondition.sync_line ∧
          p.2.acceleration = Option.none) ∧
    (∀ (mover : NodeId) (dist sp : ℚ) (g : MoveGroupStep),
      single_mover_pass_group mover dist sp = some g →
        ∀ p ∈ g, p.2.stop_condition = MoveStopCondition.sync_line ∧
          p.2.acceleration = Option.none) := by
  have base : ∀ (movers : List NodeId) (d s : NodeId → ℚ) (g : MoveGroupStep),
      build_pass_step movers d s = some g →
        ∀ p ∈ g, p.2.stop_condition = MoveStopCondition.sync_line ∧
          p.2.acceleration = Option.none := by
    intro movers d s g hg p hp
    obtain ⟨m0, rest, hm, hs, rfl⟩ := build_pass_step_some_spec hg
    obtain ⟨n, st⟩ := p
    rw [mem_create_step] at hp
    rw [hp.2]
    exact ⟨rfl, rfl⟩
  exact ⟨base,
    fun tool mount pd ps md ms g hg => base _ _ _ g hg,
    fun mover dist sp g hg => base _ _ _ g hg⟩

/-- Witness for C10 at a concrete input: the single-mover group of
`capacitive_probe`/`capacitive_pass` over `head_l` with distance 3 and
speed 2. -/
theorem steps_sync_line_and_no_acceleration_witness :
    ∀ p ∈ create_step (fun ax => |(fun _ => (3 : ℚ)) ax|)
      (fun ax => (fun _ => (2 : ℚ)) ax * copysign_one ((fun _ => (3 : ℚ)) ax))
      (fun _ => Option.none) |(3 : ℚ) / 2| [NodeId.head_l]
      MoveStopCondition.sync_line,
      p.2.stop_condition = MoveStopCondition.sync_line ∧
        p.2.acceleration = Option.none := by
  have hg : build_pass_step [NodeId.head_l] (fun _ => 3) (fun _ => 2) =
      some (create_step (fun ax => |(fun _ => (3 : ℚ)) ax|)
        (fun ax => (fun _ => (2 : ℚ)) ax * copysign_one ((fun _ => (3 : ℚ)) ax))
        (fun _ => Option.none) |(3 : ℚ) / 2| [NodeId.head_l]
        MoveStopCondition.sync_line) := by
    have hp : primary_mover_of [NodeId.head_l] = some NodeId.head_l := by
      simp [primary_mover_of]
    rw [build_pass_step_cons_some hp]
    norm_num
  exact steps_sync_line_and_no_acceleration.1 [NodeId.head_l]
    (fun _ => 3) (fun _ => 2) _ hg

lemma abs_copysign_one (x : ℚ) : |copysign_one x| = 1 := by
  by_cases h : x < 0 <;> simp [copysign_one, h]

/-- C1 (code bug): at `movers = [pipette_left, head_l]`, `distance =
{pipette_left: 2, head_l: 1}`, `speed = 1` everywhere, the selected
primary mover is the head axis `head_l` with `|distance/speed| = 1`, yet
every step's duration is 2 — `_build_pass_step` derives the duration from
`movers[0]` (`pipette_left`), leaving the computed `primary_mover`
unused, against its own comment that the mount axis is chosen to
"determine the step duration". -/
theorem duration_ignores_primary_mover :
    primary_mover_of c1_movers = some NodeId.head_l ∧
    |c1_distance NodeId.head_l / c1_speed NodeId.head_l| = 1 ∧
    (build_pass_step c1_movers c1_distance c1_speed).map
      (fun g => g.map fun p => p.2.duration) = some [2, 2] ∧
    (2 : ℚ) ≠ 1 := by
  have hne : NodeId.head_l ≠ NodeId.pipette_left := by decide
  have hp : primary_mover_of (NodeId.pipette_left :: [NodeId.head_l]) =
      some NodeId.head_l := by decide
  refine ⟨by decide, by norm_num [c1_distance, c1_speed, hne], ?_, by norm_num⟩
  rw [show c1_movers = NodeId.pipette_left :: [NodeId.head_l] from rfl,
    build_pass_step_cons_some hp,
    if_neg (by norm_num [c1_speed] : ¬ c1_speed NodeId.pipette_left = 0)]
  simp only [Option.map_some, create_step, List.map_map, List.map_cons,
    List.map_nil, Function.comp_apply, Option.some.injEq]
  norm_num [c1_distance, c1_speed]

/-- C2 counterexample: with `movers = [head_l, pipette_left]`, `distance
= {head_l: 1, pipette_left: 2}` and speed 1 everywhere, the pipette's
step records distance 2 while its duration times |velocity| is 1: the
recorded distance of a non-first mover is not derived from the step's
duration. -/
theorem distance_not_duration_times_velocity_cex :
    (build_pass_step c2_movers c1_distance c1_speed).map
      (fun g => g.map fun p => (p.2.distance, p.2.duration * |p.2.velocity|)) =
      some [(1, 1), (2, 1)] ∧ (2 : ℚ) ≠ 1 := by
  have hne : NodeId.head_l ≠ NodeId.pipette_left := by decide
  have hp : primary_mover_of (NodeId.head_l :: [NodeId.pipette_left]) =
      some NodeId.head_l := by decide
  refine ⟨?_, by norm_num⟩
  rw [show c2_movers = NodeId.head_l :: [NodeId.pipette_left] from rfl,
    build_pass_step_cons_some hp,
    if_neg (by norm_num [c1_speed] : ¬ c1_speed NodeId.head_l = 0)]
  simp only [create_step, List.map_cons, List.map_nil, Option.map]
  norm_num [c1_distance, c1_speed, copysign_one, hne]

/-- C2 amended: for a mover whose |distance|/|speed| ratio agrees with
the first mover's (in particular always for the first mover itself), the
recorded distance equals the step's duration times the magnitude of the
mover's velocity. -/
theorem distance_eq_duration_mul_velocity_of_ratio
    (movers : List NodeId) (d s : NodeId → ℚ) (g : MoveGroupStep)
    (m0 : NodeId) (rest : List NodeId) (hm : movers = m0 :: rest)
    (hg : build_pass_step movers d s = some g)
    (ax : NodeId) (st : MoveStep) (hst : (ax, st) ∈ g)
    (hax : s ax ≠ 0)
    (hratio : |d ax| * |s m0| = |d m0| * |s ax|) :
    st.distance = st.duration * |st.velocity| := by
  obtain ⟨m0', rest', hm', hs, rfl⟩ := build_pass_step_some_spec hg
  have hm0 : m0' = m0 := by
    rw [hm] at hm'
    injection hm' with h1 h2
    exact h1.symm
  subst hm0
  rw [mem_create_step] at hst
  rw [hst.2]
  simp only [abs_mul, abs_copysign_one, mul_one, abs_div]
  rw [div_mul_eq_mul_div, eq_div_iff (abs_ne_zero.mpr hs)]
  linarith [hratio]

/-- Witness for C2 at a concrete input: single mover `head_l`, distance
2, speed 1. -/
theorem distance_eq_duration_mul_velocity_witness :
    c2_witness_step.distance =
      c2_witness_step.duration * |c2_witness_step.velocity| := by
  have hg : build_pass_step [NodeId.head_l] (fun _ => 2) (fun _ => 1) =
      some [(NodeId.head_l, c2_witness_step)] := by
    have hp : primary_mover_of [NodeId.head_l] = some NodeId.head_l := by decide
    rw [build_pass_step_cons_some hp,
      if_neg (by norm_num : ¬ (fun _ => (1 : ℚ)) NodeId.head_l = 0)]
    norm_num [create_step, copysign_one, c2_witness_step]
  exact distance_eq_duration_mul_velocity_of_ratio [NodeId.head_l]
    (fun _ => 2) (fun _ => 1) _ NodeId.head_l [] rfl hg NodeId.head_l
    c2_witness_step (by simp) (by norm_num) (by norm_num)

/-- C3: a single-mover pass step with positive distance and nonzero speed
gives the mover velocity `speed` (magnitude `|speed|`, and since the
distance is positive the sign is `sgn(speed) = sgn(speed)·sgn(distance)`)
and duration `|distance / velocity|`. -/
theorem single_mover_velocity_duration
    (mover : NodeId) (d s : ℚ) (g : MoveGroupStep)
    (hd : 0 < d) (hs : s ≠ 0)
    (hg : single_mover_pass_group mover d s = some g) :
    ∃ st, (mover, st) ∈ g ∧ st.velocity = s ∧ |st.velocity| = |s| ∧
      st.duration = |d / st.velocity| := by
  unfold single_mover_pass_group at hg
  obtain ⟨m0, rest, hm, hs0, rfl⟩ := build_pass_step_some_spec hg
  have hm0 : m0 = mover := by
    injection hm with h1 h2
    exact h1.symm
  subst hm0
  have hdn : ¬ d < 0 := not_lt.mpr hd.le
  refine ⟨_, (mem_create_step).mpr ⟨List.mem_singleton.mpr rfl, rfl⟩, ?_, ?_, ?_⟩
  · simp [copysign_one, hdn]
  · simp [copysign_one, hdn]
  · simp [copysign_one, hdn]

/-- Witness for C3 at a concrete input: mover `head_l`, distance 3, speed
-2. -/
theorem single_mover_velocity_duration_witness :
    (0 : ℚ) < 3 ∧
    (∃ st, (NodeId.head_l, st) ∈ c3_witness_group ∧ st.velocity = -2 ∧
      |st.velocity| = |(-2 : ℚ)| ∧ st.duration = |3 / st.velocity|) := by
  have hg : single_mover_pass_group NodeId.head_l 3 (-2) =
      some c3_witness_group := by
    have hp : primary_mover_of [NodeId.head_l] = some NodeId.head_l := by decide
    unfold single_mover_pass_group
    rw [build_pass_step_cons_some hp]
    norm_num [create_step, copysign_one, c3_witness_group]
  exact ⟨by norm_num, single_mover_velocity_duration NodeId.head_l 3 (-2)
    c3_witness_group (by norm_num) (by norm_num) hg⟩

lemma single_group_head_l : ∃ g, single_mover_pass_group NodeId.head_l 1 1 = some g := by
  have hp : primary_mover_of [NodeId.head_l] = some NodeId.head_l := by decide
  unfold single_mover_pass_group
  rw [build_pass_step_cons_some hp]
  norm_num

lemma liquid_group_head_l :
    ∃ g, liquid_probe_pass_group NodeId.pipette_left NodeId.head_l 1 1 1 1 = some g := by
  have hp : primary_mover_of (NodeId.head_l :: [NodeId.pipette_left]) =
      some NodeId.head_l := by decide
  have hne : NodeId.head_l ≠ NodeId.pipette_left := by decide
  unfold liquid_probe_pass_group
  rw [build_pass_step_cons_some hp]
  rw [if_neg (by simp [hne] : ¬ (if NodeId.head_l = NodeId.pipette_left then (1 : ℚ)
    else if NodeId.head_l = NodeId.head_l then 1 else 0) = 0)]
  exact ⟨_, rfl⟩

/-- C4 counterexample: two runner outcomes that differ only in the
stopped-early flag give byte-for-byte the same `capacitive_probe` return:
the early-stop indication is not part of what `capacitive_probe` returns
(`position[mover][:2]` keeps only the two position/sensor floats). -/
theorem capacitive_probe_drops_stop_flag_cex :
    (runner_const 5 7 true false NodeId.head_l).stopped_early ≠
      (runner_const 5 7 false false NodeId.head_l).stopped_early ∧
    capacitive_probe NodeId.pipette_left NodeId.head_l 1 1 (some 1)
        (Except.ok (runner_const 5 7 true false)) =
      capacitive_probe NodeId.pipette_left NodeId.head_l 1 1 (some 1)
        (Except.ok (runner_const 5 7 false false)) := by
  obtain ⟨g, hg⟩ := single_group_head_l
  refine ⟨by simp [runner_const], ?_⟩
  simp only [capacitive_probe, hg]
  rfl

/-- C4 amended: `liquid_probe` returns the runner's per-node dictionary
unchanged, whose tuples include the stopped-early boolean; but
`capacitive_probe` returns only the first two (float) components of the
mover's tuple, discarding the early-stop booleans. -/
theorem probe_return_shapes :
    (∀ (tool mount : NodeId) (pd ps md ms : ℚ) (res : RunnerResult)
        (g : MoveGroupStep),
      liquid_probe_pass_group tool mount pd ps md ms = some g →
        (liquid_probe tool mount pd ps md ms (Except.ok res)).result =
          Except.ok res) ∧
    (∀ (tool mover : NodeId) (d s t : ℚ) (res : RunnerResult)
        (g : MoveGroupStep),
      single_mover_pass_group mover d s = some g →
        (capacitive_probe tool mover d s (some t) (Except.ok res)).result =
          Except.ok ((res mover).position, (res mover).sensor_value)) := by
  constructor
  · intro tool mount pd ps md ms res g hg
    simp only [liquid_probe, hg]
  · intro tool mover d s t res g hg
    simp only [capacitive_probe, hg]
    rfl

/-- Witness for C4's amended statement at concrete inputs. -/
theorem probe_return_shapes_witness :
    (liquid_probe NodeId.pipette_left NodeId.head_l 1 1 1 1
        (Except.ok (runner_const 5 7 true false))).result =
      Except.ok (runner_const 5 7 true false) ∧
    (capacitive_probe NodeId.pipette_left NodeId.head_l 1 1 (some 1)
        (Except.ok (runner_const 5 7 true false))).result =
      Except.ok ((runner_const 5 7 true false NodeId.head_l).position,
        (runner_const 5 7 true false NodeId.head_l).sensor_value) := by
  obtain ⟨g1, hg1⟩ := liquid_group_head_l
  obtain ⟨g2, hg2⟩ := single_group_head_l
  exact ⟨probe_return_shapes.1 NodeId.pipette_left NodeId.head_l 1 1 1 1
      (runner_const 5 7 true false) g1 hg1,
    probe_return_shapes.2 NodeId.pipette_left NodeId.head_l 1 1 1
      (runner_const 5 7 true false) g2 hg2⟩

/-- C5: when `send_threshold` yields no accepted value, `capacitive_probe`
raises (`RuntimeError`) with only the threshold request on the wire —
before any move group is built, any binding armed or any motion
commanded, and without touching any node other than the tool. -/
theorem threshold_rejection_aborts_before_motion (tool mover : NodeId)
    (d s : ℚ) (run_outcome : Except ProbeError RunnerResult) :
    (capacitive_probe tool mover d s Option.none run_outcome).result =
      Except.error ProbeError.threshold_rejected ∧
    (capacitive_probe tool mover d s Option.none run_outcome).events =
      [Event.send_threshold_req tool] ∧
    Event.build_step ∉
      (capacitive_probe tool mover d s Option.none run_outcome).events ∧
    Event.runner_execute ∉
      (capacitive_probe tool mover d s Option.none run_outcome).events := by
  refine ⟨rfl, rfl, ?_, ?_⟩ <;> simp [capacitive_probe]

/-- C6: in all three procedures the binding's arm happens after the group
is built and before the runner executes, and the disarm happens directly
after execution — the traces below hold for every runner outcome `ro`,
error outcomes included, so arm/disarm bracket the move even when
execution raises. -/
theorem arm_disarm_bracket_execution :
    (∀ (tool mount : NodeId) (pd ps md ms : ℚ)
        (ro : Except ProbeError RunnerResult) (g : MoveGroupStep),
      liquid_probe_pass_group tool mount pd ps md ms = some g →
        (liquid_probe tool mount pd ps md ms ro).events =
          [Event.build_step, Event.send_stop_threshold tool, Event.arm tool,
           Event.runner_execute, Event.disarm tool]) ∧
    (∀ (tool mover : NodeId) (d s t : ℚ)
        (ro : Except ProbeError RunnerResult) (g : MoveGroupStep),
      single_mover_pass_group mover d s = some g →
        (capacitive_probe tool mover d s (some t) ro).events =
          [Event.send_threshold_req tool, Event.build_step, Event.arm tool,
           Event.runner_execute, Event.disarm tool]) ∧
    (∀ (tool mover : NodeId) (d s : ℚ) (samples : List ℚ)
        (ro : Except ProbeError Unit) (g : MoveGroupStep),
      single_mover_pass_group mover d s = some g →
        (capacitive_pass tool mover d s samples ro).events =
          [Event.build_step, Event.runner_prep, Event.arm tool,
           Event.runner_execute, Event.disarm tool]) := by
  refine ⟨?_, ?_, ?_⟩
  · intro tool mount pd ps md ms ro g hg
    simp only [liquid_probe, hg]
  · intro tool mover d s t ro g hg
    simp only [capacitive_probe, hg]
  · intro tool mover d s samples ro g hg
    simp only [capacitive_pass, hg]

/-- Witness for C6 at concrete inputs, with a failing execution outcome:
the disarm is still the last event of each trace. -/
theorem arm_disarm_bracket_execution_witness :
    (liquid_probe NodeId.pipette_left NodeId.head_l 1 1 1 1
        (Except.error ProbeError.execution_error)).events =
      [Event.build_step, Event.send_stop_threshold NodeId.pipette_left,
       Event.arm NodeId.pipette_left, Event.runner_execute,
       Event.disarm NodeId.pipette_left] ∧
    (capacitive_probe NodeId.pipette_left NodeId.head_l 1 1 (some 1)
        (Except.error ProbeError.execution_error)).events =
      [Event.send_threshold_req NodeId.pipette_left, Event.build_step,
       Event.arm NodeId.pipette_left, Event.runner_execute,
       Event.disarm NodeId.pipette_left] ∧
    (capacitive_pass NodeId.pipette_left NodeId.head_l 1 1 [3, 1, 2]
        (Except.error ProbeError.execution_error)).events =
      [Event.build_step, Event.runner_prep, Event.arm NodeId.pipette_left,
       Event.runner_execute, Event.disarm NodeId.pipette_left] := by
  obtain ⟨g1, hg1⟩ := liquid_group_head_l
  obtain ⟨g2, hg2⟩ := single_group_head_l
  exact ⟨arm_disarm_bracket_execution.1 NodeId.pipette_left NodeId.head_l
      1 1 1 1 (Except.error ProbeError.execution_error) g1 hg1,
    arm_disarm_bracket_execution.2.1 NodeId.pipette_left NodeId.head_l
      1 1 1 (Except.error ProbeError.execution_error) g2 hg2,
    arm_disarm_bracket_execution.2.2 NodeId.pipette_left NodeId.head_l
      1 1 [3, 1, 2] (Except.error ProbeError.execution_error) g2 hg2⟩

lemma drain_eq_items : ∀ q : SampleQueue, drain q = q.items := by
  intro q
  obtain ⟨items⟩ := q
  induction items with
  | nil =>
      rw [drain]
      rfl
  | cons x xs ih =>
      rw [drain]
      show x :: drain ⟨xs⟩ = x :: xs
      rw [ih]

/-- C7: the drain loop of `capacitive_pass` returns exactly the samples
in the capture queue in FIFO production order, and (being a total
function that recurses on `get_nowait` until the queue is empty) it
terminates as soon as the queue is empty instead of blocking; the
procedure's result after a successful bound motion is exactly the sample
list. -/
theorem drain_returns_fifo_samples :
    (∀ q : SampleQueue, drain q = q.items) ∧
    (∀ (tool mover : NodeId) (d s : ℚ) (samples : List ℚ)
        (g : MoveGroupStep),
      single_mover_pass_group mover d s = some g →
        (capacitive_pass tool mover d s samples (Except.ok ())).result =
          Except.ok samples) := by
  refine ⟨drain_eq_items, ?_⟩
  intro tool mover d s samples g hg
  simp only [capacitive_pass, hg]
  simp [Except.map, drain_eq_items]

/-- Witness for C7 at a concrete input: three samples come back in
production order. -/
theorem drain_returns_fifo_samples_witness :
    (capacitive_pass NodeId.pipette_left NodeId.head_l 1 1 [3, 1, 2]
        (Except.ok ())).result = Except.ok [3, 1, 2] := by
  obtain ⟨g, hg⟩ := single_group_head_l
  exact drain_returns_fifo_samples.2 NodeId.pipette_left NodeId.head_l
    1 1 [3, 1, 2] g hg

/-- C8: `liquid_probe` converts the requested pascal threshold to the
fixed-point wire value by multiplying with
`sensor_fixed_point_conversion`, and the float → fixed-point → float
conversion is idempotent after one quantization:
`to_fixed_point (to_float (to_fixed_point x)) = to_fixed_point x`. -/
theorem fixed_point_conversion_roundtrip :
    (∀ p : ℚ, threshold_fixed_point p = p * sensor_fixed_point_conversion) ∧
    (∀ x : ℚ, to_fixed_point (to_float (to_fixed_point x)) = to_fixed_point x) := by
  refine ⟨fun p => rfl, fun x => ?_⟩
  unfold to_fixed_point to_float
  rw [div_mul_cancel₀]
  · rw [round_intCast]
  · norm_num [sensor_fixed_point_conversion]

end ToolSensors
